import Mathlib

/-!
# Verification of the status-persistence and enrichment core of `app.py`

This file gives a shallow embedding, in Lean, of the persistence and
enrichment layer of the arcade-dashboard application (`src/app.py`):

* the Python string normalisation helpers (`.strip()`, `.lower()`),
* the SQLite-backed local store (`sqlite_get_all_statuses`,
  `sqlite_set_status`),
* the Supabase REST client (`supabase_get_all_statuses`,
  `supabase_set_status`) with its response parsing,
* the configuration resolver (`_get_secret`, `supabase_enabled`),
* the unified status service (`get_all_statuses`, `set_status`) and the
  in-process session cache (`status_for_rom`, `update_status`),
* the enrichment clients (`adb_urls`, `fetch_json_url`,
  `fetch_adb_details`, `fetch_image_bytes`) and the media extractor
  (`extract_image_urls`).

Network and database effects are made explicit: remote HTTP calls become
`Except`-valued oracles passed as parameters (an `Except.error` models the
Python call raising an exception), the SQLite table becomes a list of rows
threaded through the functions, and every function that issues requests
additionally returns the list of requests it issued, so that statements
about "no network call is made" can be expressed.  Python dictionaries
become association lists with insert-or-replace-in-place semantics,
mirroring insertion-ordered `dict`s.
-/

/-! ## Python string helpers -/

/-- Whitespace characters removed by Python's `str.strip()` (the ASCII
whitespace set: space, tab, newline, carriage return, vertical tab,
form feed). -/
def pyIsSpace (c : Char) : Bool :=
  c = ' ' || c = '\t' || c = '\n' || c = '\r' || c = '\x0b' || c = '\x0c'

/-- Python `str.strip()`: drop whitespace from both ends. -/
def pyStrip (s : String) : String :=
  ⟨((s.data.dropWhile pyIsSpace).reverse.dropWhile pyIsSpace).reverse⟩

/-- Python `str.lower()` (ASCII case mapping, which covers every key this
application produces). -/
def pyLower (s : String) : String :=
  ⟨s.data.map Char.toLower⟩

/-- The key normalisation `(rom or "").strip().lower()` applied throughout
`app.py` before a ROM name is used as a store key. -/
def normRom (s : String) : String :=
  pyLower (pyStrip s)

/-! ## Association lists (Python `dict` with insertion order) -/

/-- `dict.get`: first binding of a key, if any. -/
def alLookup {α : Type} : List (String × α) → String → Option α
  | [], _ => none
  | (k, v) :: rest, key => if k = key then some v else alLookup rest key

/-- `d[key] = val`: replace the value in place if the key is bound,
otherwise append the new binding (Python dicts keep insertion order and
keep the original position on overwrite). -/
def alInsert {α : Type} : List (String × α) → String → α → List (String × α)
  | [], key, val => [(key, val)]
  | (k, v) :: rest, key, val =>
    if k = key then (k, val) :: rest else (k, v) :: alInsert rest key val

/-- `d.pop(key, None)`: remove the binding of a key. -/
def alErase {α : Type} : List (String × α) → String → List (String × α)
  | [], _ => []
  | (k, v) :: rest, key =>
    if k = key then alErase rest key else (k, v) :: alErase rest key

/-! ## JSON values -/

/-- Parsed JSON values (the result of `json.loads`), also used as the model
of arbitrary Python values stored in dictionaries. -/
inductive Json where
  | null
  | bool (b : Bool)
  | num (n : Int)
  | str (s : String)
  | arr (xs : List Json)
  | obj (kvs : List (String × Json))

/-- Python truthiness of a JSON value (`bool(x)`). -/
def pyTruthy : Json → Bool
  | .null => false
  | .bool b => b
  | .num n => n ≠ 0
  | .str s => s ≠ ""
  | .arr xs => !xs.isEmpty
  | .obj kvs => !kvs.isEmpty

/-- The value `row.get(k)` on a parsed JSON object: the bound value, or
Python `None` (here `Json.null`) when the key is absent. -/
def jsonGet (kvs : List (String × Json)) (k : String) : Json :=
  match alLookup kvs k with
  | some v => v
  | none => .null

/-- A SQLite `TEXT`-or-`NULL` status cell viewed as the Python value the
row produces (`None` or a `str`). -/
def statusJson : Option String → Json
  | none => .null
  | some s => .str s

/-! ## Local store (SQLite)

The table `game_status (rom TEXT PRIMARY KEY, status TEXT, updated_at
TEXT)` is modelled as a list of rows in rowid order: an upsert that hits an
existing key updates the row in place, a fresh insert appends. -/

/-- One row of the `game_status` table. -/
structure SqlRow where
  rom : String
  status : Option String
  updated_at : String
deriving DecidableEq

/-- Loop body of `sqlite_get_all_statuses`: `if rom:
out[str(rom).strip().lower()] = status`. -/
def sgasStep (out : List (String × Json)) (row : SqlRow) : List (String × Json) :=
  if row.rom ≠ "" then alInsert out (normRom row.rom) (statusJson row.status) else out

/-- `sqlite_get_all_statuses()` (app.py:251-260): select every row and
build a dict keyed by the normalised rom. -/
def sqlite_get_all_statuses (db : List SqlRow) : List (String × Json) :=
  db.foldl sgasStep []

/-- The SQL upsert `INSERT ... ON CONFLICT(rom) DO UPDATE SET
status=excluded.status, updated_at=datetime('now')`.  `now` is the value
SQLite's `datetime('now')` produces at that moment. -/
def dbUpsert (db : List SqlRow) (rom : String) (s : String) (now : String) : List SqlRow :=
  if db.any (fun row => row.rom = rom) then
    db.map (fun row => if row.rom = rom then ⟨rom, some s, now⟩ else row)
  else
    db ++ [⟨rom, some s, now⟩]

/-- `sqlite_set_status(rom, status)` (app.py:262-281): normalise the key,
bail out if it is empty, delete on `None`, upsert otherwise. -/
def sqlite_set_status (now : String) (rom : String) (status : Option String)
    (db : List SqlRow) : List SqlRow :=
  let r := normRom rom
  if r = "" then db
  else
    match status with
    | none => db.filter (fun row => row.rom ≠ r)
    | some s => dbUpsert db r s now

/-! ## Configuration resolver -/

/-- The layered configuration visible to `_get_secret`: `st.secrets`
(whose `.get` raises when no secrets file exists, modelled by
`secretsOk = false`) layered over `st.session_state`.  All configured
values are strings. -/
structure Config where
  secretsOk : Bool
  secrets : String → Option String
  session : String → Option String

/-- `_get_secret(name)` (app.py:161-172): try `st.secrets.get`, fall back
to `st.session_state.get`, strip string values, and map falsy values
(`None`, `""`) to `None` via `val or None`. -/
def _get_secret (cfg : Config) (name : String) : Option String :=
  let val := if cfg.secretsOk then cfg.secrets name else none
  let val := match val with
    | none => cfg.session name
    | some v => some v
  match val with
  | none => none
  | some s => let s := pyStrip s; if s = "" then none else some s

/-- `supabase_enabled()` (app.py:174-177): both the URL and one of the two
key names must resolve to a truthy value. -/
def supabase_enabled (cfg : Config) : Bool :=
  (_get_secret cfg "SUPABASE_URL").isSome &&
    ((_get_secret cfg "SUPABASE_ANON_KEY") <|> (_get_secret cfg "SUPABASE_KEY")).isSome

/-! ## Remote store (Supabase REST) -/

/-- `supabase_get_all_statuses` (app.py:196-207).  The parameter `resp`
is the outcome of `urlopen` + `json.loads` on the REST read: `.error ()`
when the network call or the JSON parse raises, `.ok data` otherwise.
The function re-raises those failures, then: a non-list payload yields an
empty dict; a list is folded row by row, where a non-dict row or a truthy
non-string `rom` field raises `AttributeError` (on `.get` / `.strip`),
a falsy `rom` field is skipped, and otherwise
`out[rom.strip().lower()] = row.get("status")`. -/
def supabase_get_all_statuses (resp : Except Unit Json) :
    Except Unit (List (String × Json)) :=
  match resp with
  | .error _ => .error ()
  | .ok data =>
    match data with
    | .arr rows =>
      rows.foldlM (fun out row =>
        match row with
        | .obj kvs =>
          let raw := jsonGet kvs "rom"
          let v := if pyTruthy raw then raw else .str ""
          match v with
          | .str s =>
            let rom := pyLower (pyStrip s)
            if rom = "" then Except.ok out
            else Except.ok (alInsert out rom (jsonGet kvs "status"))
          | _ => Except.error ()
        | _ => Except.error ()) []
    | _ => .ok []

/-- Percent-encoding helpers shared by `urllib.parse.quote` and
`quote_plus`: hex digit of a nibble. -/
def hexDigit (n : Nat) : Char :=
  if n < 10 then Char.ofNat ('0'.toNat + n) else Char.ofNat ('A'.toNat + (n - 10))

/-- The UTF-8 encoding of one character, as byte values. -/
def utf8Bytes (c : Char) : List Nat :=
  let n := c.toNat
  if n < 0x80 then [n]
  else if n < 0x800 then
    [0xC0 + n / 64, 0x80 + n % 64]
  else if n < 0x10000 then
    [0xE0 + n / 4096, 0x80 + n / 64 % 64, 0x80 + n % 64]
  else
    [0xF0 + n / 262144, 0x80 + n / 4096 % 64, 0x80 + n / 64 % 64, 0x80 + n % 64]

/-- `%XX` encoding of one UTF-8 byte. -/
def pctByte (b : Nat) : String :=
  ⟨['%', hexDigit (b / 16), hexDigit (b % 16)]⟩

/-- Percent-encode one character through its UTF-8 bytes. -/
def pctChar (c : Char) : String :=
  String.join ((utf8Bytes c).map pctByte)

/-- `urllib.parse.quote(s)` with the default `safe='/'`: ASCII
alphanumerics, `_.-~` and `/` pass through, everything else is
percent-encoded. -/
def pyQuote (s : String) : String :=
  String.join (s.data.map fun c =>
    if c.isAlphanum || c = '_' || c = '.' || c = '-' || c = '~' || c = '/' then
      String.singleton c
    else pctChar c)

/-- `urllib.parse.quote_plus(s)` as used by `urlencode`: like `quote` with
no safe characters, and a space becomes `+`. -/
def quotePlus (s : String) : String :=
  String.join (s.data.map fun c =>
    if c = ' ' then "+"
    else if c.isAlphanum || c = '_' || c = '.' || c = '-' || c = '~' then
      String.singleton c
    else pctChar c)

/-- `urllib.parse.urlencode` on an insertion-ordered dict. -/
def urlencode (params : List (String × String)) : String :=
  String.intercalate "&" (params.map fun p => quotePlus p.1 ++ "=" ++ quotePlus p.2)

/-- One Supabase write request, as `supabase_set_status` would hand it to
`urlopen` (the auth headers added by `_sb_headers` carry no information
beyond the configured key and are not modelled; the POST body is the JSON
object `{"rom": ..., "status": ...}` recorded here as the payload pair). -/
structure SbReq where
  url : String
  method : String
  payload : Option (String × String)
  prefer : Option String
deriving DecidableEq

/-- `supabase_set_status(rom, status)` (app.py:209-229), viewed as the
request it issues: `none` when the normalised key is empty (the function
returns before any network activity), a filtered DELETE when `status` is
`None`, and a merge-duplicates POST upsert otherwise. -/
def supabase_set_status (base : String) (rom : String) (status : Option String)
    (table : String := "game_status") : Option SbReq :=
  let rom := normRom rom
  if rom = "" then none
  else
    match status with
    | none =>
      some ⟨base ++ "/rest/v1/" ++ table ++ "?rom=eq." ++ pyQuote rom, "DELETE", none, none⟩
    | some s =>
      some ⟨base ++ "/rest/v1/" ++ table, "POST", some (rom, s),
        some "resolution=merge-duplicates"⟩

/-! ## Unified status service

`get_all_statuses` / `set_status` (app.py:284-299) try the remote store
when it is configured and silently fall back to SQLite when the remote
call raises.  The remote outcome is passed in as an oracle; the second
component of each result records whether the remote store was attempted
at all. -/

/-- `get_all_statuses()`: remote read (with its raw response `resp`) when
enabled, SQLite otherwise or on any remote exception. -/
def get_all_statuses (cfg : Config) (resp : Except Unit Json) (db : List SqlRow) :
    List (String × Json) × Bool :=
  if supabase_enabled cfg then
    match supabase_get_all_statuses resp with
    | .ok m => (m, true)
    | .error _ => (sqlite_get_all_statuses db, true)
  else
    (sqlite_get_all_statuses db, false)

/-- `set_status(rom, status)`: attempt the remote write when enabled
(`remote` is `.error ()` when `supabase_set_status` raised), falling back
to `sqlite_set_status` on failure.  Returns the resulting local table and
whether the remote store was attempted. -/
def set_status (cfg : Config) (remote : Except Unit Unit) (now : String)
    (rom : String) (status : Option String) (db : List SqlRow) :
    List SqlRow × Bool :=
  if supabase_enabled cfg then
    match remote with
    | .ok _ => (db, true)
    | .error _ => (sqlite_set_status now rom status db, true)
  else
    (sqlite_set_status now rom status db, false)

/-! ## Session status cache -/

/-- `status_for_rom(rom)` (app.py:329-333): normalise, return `None` for
an empty key, otherwise `st.session_state.status_cache.get(rom)` (absence
and a stored `None` both surface as Python `None`, i.e. `Json.null`). -/
def status_for_rom (cache : List (String × Json)) (rom : String) : Json :=
  let r := normRom rom
  if r = "" then .null
  else
    match alLookup cache r with
    | some v => v
    | none => .null

/-- `update_status(rom, new_status)` (app.py:335-343): no-op on an empty
normalised key; otherwise write through `set_status` and mutate the cache
(pop on `None`, assign otherwise).  Returns the new cache and the new
local table. -/
def update_status (cfg : Config) (remote : Except Unit Unit) (now : String)
    (rom : String) (new_status : Option String)
    (cache : List (String × Json)) (db : List SqlRow) :
    List (String × Json) × List SqlRow :=
  let r := normRom rom
  if r = "" then (cache, db)
  else
    let db' := (set_status cfg remote now r new_status db).1
    match new_status with
    | none => (alErase cache r, db')
    | some s => (alInsert cache r (.str s), db')

/-! ## Enrichment: ADB scraper client -/

/-- The four URL variants of `adb_urls(rom)` (app.py:440-453). -/
structure AdbUrls where
  page_https : String
  page_http : String
  scraper_https : String
  scraper_http : String

/-- `adb_urls(rom)`: normalise the rom and build the page and scraper URL
variants (the scraper query string is `urlencode`d in dict insertion
order: `ajax`, `lang`, `game_name`). -/
def adb_urls (rom : String) : AdbUrls :=
  let rom := normRom rom
  let q := urlencode [("ajax", "query_mame"), ("lang", "en"), ("game_name", rom)]
  { page_https := "https://adb.arcadeitalia.net/?mame=" ++ rom
    page_http := "http://adb.arcadeitalia.net/?mame=" ++ rom
    scraper_https := "https://adb.arcadeitalia.net/service_scraper.php?" ++ q
    scraper_http := "http://adb.arcadeitalia.net/service_scraper.php?" ++ q }

/-- `fetch_json_url(url)` (app.py:455-470): `net url` is the combined
outcome of the GET and `json.loads` (`.error e` carries `str(e)` of the
raised exception); a parsed non-dict payload is wrapped as
`{"_data": data}`. -/
def fetch_json_url (net : String → Except String Json) (url : String) :
    Except String Json :=
  match net url with
  | .error e => .error e
  | .ok d =>
    match d with
    | .obj kvs => .ok (.obj kvs)
    | other => .ok (.obj [("_data", other)])

/-- `fetch_adb_details(rom)` (app.py:472-497): empty normalised key yields
an uncached error dict; a cache hit returns the cached dict without
network traffic; otherwise try the scraper HTTPS then HTTP variants in
order, cache and return the first success, or cache and return an error
dict carrying the last failure's detail and the fallback page URL.
Returns `(result, new adb cache, urls fetched)`. -/
def fetch_adb_details (net : String → Except String Json) (rom : String)
    (cache : List (String × Json)) :
    Json × List (String × Json) × List String :=
  let rom := normRom rom
  if rom = "" then
    (.obj [("_error", .str "No ROM short name available for this game.")], cache, [])
  else
    match alLookup cache rom with
    | some v => (v, cache, [])
    | none =>
      let urls := adb_urls rom
      match fetch_json_url net urls.scraper_https with
      | .ok d => (d, alInsert cache rom d, [urls.scraper_https])
      | .error _ =>
        match fetch_json_url net urls.scraper_http with
        | .ok d => (d, alInsert cache rom d, [urls.scraper_https, urls.scraper_http])
        | .error e2 =>
          let out : Json := .obj
            [("_error", .str "Could not retrieve data from ADB right now."),
             ("_detail", .str (if e2 = "" then "Unknown error" else e2)),
             ("_rom", .str rom),
             ("_fallback_page", .str urls.page_http)]
          (out, alInsert cache rom out, [urls.scraper_https, urls.scraper_http])

/-! ## Enrichment: marquee bytes client -/

/-- The single GET that `fetch_image_bytes` issues when the URL is not
cached. -/
structure HttpGet where
  url : String
  userAgent : String
  timeoutSec : Nat
deriving DecidableEq

/-- `fetch_image_bytes(url, timeout_sec=10)` (app.py:408-420): a cache hit
(including a cached failure, stored as `None`) is returned with no network
traffic; otherwise one GET with the client-identifier UA header and the
bounded timeout is issued, and any failure is cached and returned as
`None`.  Returns `(bytes-or-none, new cache, requests issued)`. -/
def fetch_image_bytes (net : String → Except Unit (List UInt8))
    (cache : List (String × Option (List UInt8))) (url : String)
    (timeout_sec : Nat := 10) :
    Option (List UInt8) × List (String × Option (List UInt8)) × List HttpGet :=
  match alLookup cache url with
  | some v => (v, cache, [])
  | none =>
    let req : HttpGet := ⟨url, "Mozilla/5.0 (ArcadeGamePicker)", timeout_sec⟩
    match net url with
    | .ok b => (some b, alInsert cache url (some b), [req])
    | .error _ => (none, alInsert cache url none, [req])

/-! ## Enrichment: media extraction -/

/-- Python `s.startswith(pat)` on character lists. -/
def charsStartWith : List Char → List Char → Bool
  | [], _ => true
  | _ :: _, [] => false
  | p :: ps, c :: cs => p = c && charsStartWith ps cs

/-- Case-insensitively consume a (lowercase) pattern from the front of a
character list, returning the remainder on success — one alternative of
the extension alternation in the regex
`\.(png|jpg|jpeg|webp)(\?.*)?$` under `re.IGNORECASE`. -/
def ciConsume : List Char → List Char → Option (List Char)
  | [], cs => some cs
  | _ :: _, [] => none
  | p :: ps, c :: cs => if c.toLower = p then ciConsume ps cs else none

/-- `.*$` of the regex: the remainder matches iff, after discarding one
final newline (before which `$` may match), no newline remains (`.` does
not match newlines). -/
def dotStarDollar (cs : List Char) : Bool :=
  let core := if cs.getLast? = some '\n' then cs.dropLast else cs
  core.all (fun c => c ≠ '\n')

/-- `(\?.*)?$` of the regex: end of string, `$` just before a final
newline, or a literal `?` followed by a `.*$` match. -/
def imgTailMatch : List Char → Bool
  | [] => true
  | ['\n'] => true
  | '?' :: rest => dotStarDollar rest
  | _ => false

/-- Does `\.(png|jpg|jpeg|webp)(\?.*)?$` match starting at this position? -/
def imgExtMatchHere (cs : List Char) : Bool :=
  match cs with
  | '.' :: rest =>
    ["png", "jpg", "jpeg", "webp"].any fun e =>
      match ciConsume e.data rest with
      | some rem => imgTailMatch rem
      | none => false
  | _ => false

/-- `re.search(r"\.(png|jpg|jpeg|webp)(\?.*)?$", s, re.IGNORECASE)`:
the pattern matches at some position of `s`. -/
def imgExtSearch (s : String) : Bool :=
  s.data.tails.any imgExtMatchHere

/-- The test applied to each stripped string during the walk of
`extract_image_urls`: an `http(s)` URL whose path ends in an image
extension, optionally followed by a query string. -/
def isImageUrl (s : String) : Bool :=
  (charsStartWith "http://".data s.data || charsStartWith "https://".data s.data) &&
    imgExtSearch s

mutual

/-- The inner `walk` of `extract_image_urls` (app.py:499-513): dict values
and list elements in order; a string leaf contributes its stripped form
when it passes `isImageUrl`. -/
def walkJson : Json → List String
  | .null => []
  | .bool _ => []
  | .num _ => []
  | .str x => let s := pyStrip x; if isImageUrl s then [s] else []
  | .arr xs => walkJsonList xs
  | .obj kvs => walkJsonObj kvs

/-- `walk` over the elements of a JSON array. -/
def walkJsonList : List Json → List String
  | [] => []
  | x :: xs => walkJson x ++ walkJsonList xs

/-- `walk` over the values of a JSON object, in insertion order. -/
def walkJsonObj : List (String × Json) → List String
  | [] => []
  | kv :: kvs => walkJson kv.2 ++ walkJsonObj kvs

end

/-- The de-duplication loop of `extract_image_urls`: keep the first
occurrence of each URL (`seen` is the set of URLs already emitted). -/
def dedupeFirstSeen (seen : List String) : List String → List String
  | [] => []
  | u :: us =>
    if u ∈ seen then dedupeFirstSeen seen us
    else u :: dedupeFirstSeen (u :: seen) us

/-- `extract_image_urls(obj)` (app.py:499-520): walk the structure
collecting image URLs, then de-duplicate preserving first-seen order. -/
def extract_image_urls (obj : Json) : List String :=
  dedupeFirstSeen [] (walkJson obj)

mutual

/-- Specification-side traversal: every string leaf of a nested
mapping/sequence structure, in the same dict-values/list-elements
traversal order, with no filtering. -/
def stringLeaves : Json → List String
  | .null => []
  | .bool _ => []
  | .num _ => []
  | .str x => [x]
  | .arr xs => stringLeavesList xs
  | .obj kvs => stringLeavesObj kvs

/-- `stringLeaves` over the elements of a JSON array. -/
def stringLeavesList : List Json → List String
  | [] => []
  | x :: xs => stringLeaves x ++ stringLeavesList xs

/-- `stringLeaves` over the values of a JSON object. -/
def stringLeavesObj : List (String × Json) → List String
  | [] => []
  | kv :: kvs => stringLeaves kv.2 ++ stringLeavesObj kvs

end

/-! ## Association-list lemmas -/

theorem alLookup_alInsert {α : Type} (l : List (String × α)) (key k : String) (v : α) :
    alLookup (alInsert l key v) k = if key = k then some v else alLookup l k := by
  induction l with
  | nil => simp [alInsert, alLookup]
  | cons hd tl ih =>
    obtain ⟨hk, hv⟩ := hd
    by_cases h1 : hk = key
    · subst h1
      by_cases h2 : hk = k
      · subst h2; simp [alInsert, alLookup]
      · simp [alInsert, alLookup, h2]
    · by_cases h2 : hk = k
      · subst h2
        have hkey : ¬key = hk := fun h => h1 h.symm
        simp [alInsert, alLookup, h1, hkey]
      · simp [alInsert, alLookup, h1, h2, ih]

theorem alLookup_alErase {α : Type} (l : List (String × α)) (key k : String) :
    alLookup (alErase l key) k = if key = k then none else alLookup l k := by
  induction l with
  | nil => simp [alErase, alLookup]
  | cons hd tl ih =>
    obtain ⟨hk, hv⟩ := hd
    by_cases h1 : hk = key
    · subst h1
      by_cases h2 : hk = k
      · subst h2; simp [alErase, alLookup, ih]
      · simp [alErase, alLookup, h2, ih]
    · by_cases h2 : hk = k
      · subst h2
        have hkey : ¬key = hk := fun h => h1 h.symm
        simp [alErase, alLookup, h1, hkey]
      · simp [alErase, alLookup, h1, h2, ih]

/-! ## Example configurations (used by witnesses and counterexamples) -/

/-- A configuration with both Supabase settings present: the remote store
is enabled. -/
def cfgOn : Config :=
  { secretsOk := true
    secrets := fun n =>
      if n = "SUPABASE_URL" then some "https://sb.example"
      else if n = "SUPABASE_ANON_KEY" then some "key123"
      else none
    session := fun _ => none }

/-- A configuration with no settings at all: the remote store is
disabled. -/
def cfgOff : Config :=
  { secretsOk := false, secrets := fun _ => none, session := fun _ => none }

/-! ## C1 -/

/-- C1: for both operations of the unified status service, if the remote
store is configured (`supabase_enabled`) and the remote call raises any
error, the service returns exactly what the local SQLite operation alone
would have produced (the remote failure is absorbed; the service's result
is a plain value, so the caller never observes it). -/
theorem remote_failure_falls_back_to_local (cfg : Config) (resp : Except Unit Json)
    (remote : Except Unit Unit) (now rom : String) (status : Option String)
    (db : List SqlRow) (hen : supabase_enabled cfg = true) :
    (supabase_get_all_statuses resp = .error () →
      get_all_statuses cfg resp db = (sqlite_get_all_statuses db, true))
  ∧ (remote = .error () →
      set_status cfg remote now rom status db = (sqlite_set_status now rom status db, true)) := by
  constructor
  · intro h
    simp [get_all_statuses, hen, h]
  · intro h
    subst h
    simp [set_status, hen]

/-- Witness for C1 at a concrete enabled configuration, failing remote
calls, and a one-row local table. -/
theorem remote_failure_falls_back_to_local_witness :
    get_all_statuses cfgOn (.error ()) [⟨"pacman", some "played", "t0"⟩] =
      (sqlite_get_all_statuses [⟨"pacman", some "played", "t0"⟩], true)
  ∧ set_status cfgOn (.error ()) "t1" "dkong" (some "want_to_play")
      [⟨"pacman", some "played", "t0"⟩] =
      (sqlite_set_status "t1" "dkong" (some "want_to_play")
        [⟨"pacman", some "played", "t0"⟩], true) :=
  ⟨(remote_failure_falls_back_to_local cfgOn (.error ()) (.error ()) "t1" "dkong"
      (some "want_to_play") [⟨"pacman", some "played", "t0"⟩] rfl).1 rfl,
   (remote_failure_falls_back_to_local cfgOn (.error ()) (.error ()) "t1" "dkong"
      (some "want_to_play") [⟨"pacman", some "played", "t0"⟩] rfl).2 rfl⟩

/-! ## C7 -/

/-- C7: `fetch_image_bytes` never raises (it is a total function into
plain values): a URL already in the session cache is answered from the
cache — including a cached failure, stored as `none` — with no network
traffic; otherwise exactly one GET with the client-identifier header and
the bounded 10-second timeout is issued, and any failure is cached and
returned as absent. -/
theorem fetch_image_bytes_spec (net : String → Except Unit (List UInt8))
    (cache : List (String × Option (List UInt8))) (url : String) :
    (∀ v, alLookup cache url = some v → fetch_image_bytes net cache url = (v, cache, []))
  ∧ (alLookup cache url = none →
      (fetch_image_bytes net cache url).2.2 =
        [⟨url, "Mozilla/5.0 (ArcadeGamePicker)", 10⟩]
    ∧ (net url = .error () →
        fetch_image_bytes net cache url =
          (none, alInsert cache url none, [⟨url, "Mozilla/5.0 (ArcadeGamePicker)", 10⟩]))
    ∧ (∀ b, net url = .ok b →
        fetch_image_bytes net cache url =
          (some b, alInsert cache url (some b),
            [⟨url, "Mozilla/5.0 (ArcadeGamePicker)", 10⟩]))) := by
  refine ⟨fun v hv => ?_, fun hmiss => ⟨?_, fun herr => ?_, fun b hok => ?_⟩⟩
  · simp [fetch_image_bytes, hv]
  · cases hn : net url <;> simp [fetch_image_bytes, hmiss, hn]
  · simp [fetch_image_bytes, hmiss, herr]
  · simp [fetch_image_bytes, hmiss, hok]

/-- Witness for C7: a cached failure is served from the cache, and a
fresh URL failing over the network is cached as absent. -/
theorem fetch_image_bytes_spec_witness :
    fetch_image_bytes (fun _ => .error ()) [("https://r2.example/a.png", none)]
        "https://r2.example/a.png" =
      (none, [("https://r2.example/a.png", none)], [])
  ∧ fetch_image_bytes (fun _ => .error ()) [] "https://r2.example/b.png" =
      (none, alInsert [] "https://r2.example/b.png" none,
        [⟨"https://r2.example/b.png", "Mozilla/5.0 (ArcadeGamePicker)", 10⟩]) :=
  ⟨(fetch_image_bytes_spec (fun _ => .error ()) [("https://r2.example/a.png", none)]
      "https://r2.example/a.png").1 none rfl,
   ((fetch_image_bytes_spec (fun _ => .error ()) [] "https://r2.example/b.png").2
      rfl).2.1 rfl⟩

/-! ## C9 -/

/-- A configuration whose only setting is whitespace-only (used to witness
the whitespace branch of `_get_secret`). -/
def cfgWs : Config :=
  { secretsOk := true
    secrets := fun n => if n = "SUPABASE_URL" then some "   " else none
    session := fun _ => none }

/-- C9: the configuration resolver returns absent rather than failing —
`_get_secret` is `none` for an unset secret and for a whitespace-only
value (from either layer); `supabase_enabled` cannot be `true` unless both
the URL and one of the credentials resolve; and when it is `false`, both
unified status operations go directly to the local store, never attempting
the remote one. -/
theorem config_absent_uses_local (cfg : Config) (name : String)
    (resp : Except Unit Json) (remote : Except Unit Unit) (now rom : String)
    (status : Option String) (db : List SqlRow) :
    ((if cfg.secretsOk then cfg.secrets name else none) = none →
      cfg.session name = none → _get_secret cfg name = none)
  ∧ (∀ v, cfg.secretsOk = true → cfg.secrets name = some v → pyStrip v = "" →
      _get_secret cfg name = none)
  ∧ (∀ v, (if cfg.secretsOk then cfg.secrets name else none) = none →
      cfg.session name = some v → pyStrip v = "" → _get_secret cfg name = none)
  ∧ (supabase_enabled cfg = true →
      (∃ u, _get_secret cfg "SUPABASE_URL" = some u) ∧
      (∃ c, ((_get_secret cfg "SUPABASE_ANON_KEY") <|>
              (_get_secret cfg "SUPABASE_KEY")) = some c))
  ∧ (supabase_enabled cfg = false →
      get_all_statuses cfg resp db = (sqlite_get_all_statuses db, false) ∧
      set_status cfg remote now rom status db = (sqlite_set_status now rom status db, false)) := by
  refine ⟨fun h1 h2 => ?_, fun v h1 h2 h3 => ?_, fun v h1 h2 h3 => ?_, fun hen => ?_,
    fun hdis => ⟨?_, ?_⟩⟩
  · simp [_get_secret, h1, h2]
  · simp [_get_secret, h1, h2, h3]
  · simp [_get_secret, h1, h2, h3]
  · simp only [supabase_enabled, Bool.and_eq_true, Option.isSome_iff_exists] at hen
    exact hen
  · simp [get_all_statuses, hdis]
  · simp [set_status, hdis]

/-- Witness for C9: the empty configuration resolves nothing, a
whitespace-only URL resolves to absent, and with the remote disabled both
operations are served by SQLite without a remote attempt. -/
theorem config_absent_uses_local_witness :
    _get_secret cfgOff "SUPABASE_URL" = none
  ∧ _get_secret cfgWs "SUPABASE_URL" = none
  ∧ get_all_statuses cfgOff (.error ()) [] = (sqlite_get_all_statuses [], false)
  ∧ set_status cfgOff (.error ()) "t0" "pacman" (some "played") [] =
      (sqlite_set_status "t0" "pacman" (some "played") [], false) :=
  ⟨(config_absent_uses_local cfgOff "SUPABASE_URL" (.error ()) (.error ()) "t0"
      "pacman" (some "played") []).1 rfl rfl,
   (config_absent_uses_local cfgWs "SUPABASE_URL" (.error ()) (.error ()) "t0"
      "pacman" (some "played") []).2.1 "   " rfl rfl rfl,
   ((config_absent_uses_local cfgOff "SUPABASE_URL" (.error ()) (.error ()) "t0"
      "pacman" (some "played") []).2.2.2.2 rfl).1,
   ((config_absent_uses_local cfgOff "SUPABASE_URL" (.error ()) (.error ()) "t0"
      "pacman" (some "played") []).2.2.2.2 rfl).2⟩

/-! ## C10 -/

/-- C10: a key that strips to the empty string is rejected by every write
path — `update_status` leaves both the cache and the table untouched,
`set_status` and `sqlite_set_status` leave the table untouched,
`supabase_set_status` issues no request — and `status_for_rom` on such a
key is `None`. -/
theorem empty_key_operations_noop (cfg : Config) (remote : Except Unit Unit)
    (now base table k : String) (ns : Option String)
    (cache : List (String × Json)) (db : List SqlRow)
    (h : pyStrip k = "") :
    update_status cfg remote now k ns cache db = (cache, db)
  ∧ (set_status cfg remote now k ns db).1 = db
  ∧ sqlite_set_status now k ns db = db
  ∧ supabase_set_status base k ns table = none
  ∧ status_for_rom cache k = Json.null := by
  have hn : normRom k = "" := by
    show pyLower (pyStrip k) = ""
    rw [h]
    exact rfl
  have hsql : sqlite_set_status now k ns db = db := by
    simp [sqlite_set_status, hn]
  have hset : (set_status cfg remote now k ns db).1 = db := by
    cases remote <;> by_cases he : supabase_enabled cfg <;>
      simp [set_status, he, hsql]
  refine ⟨?_, hset, hsql, ?_, ?_⟩
  · simp [update_status, hn]
  · simp [supabase_set_status, hn]
  · simp [status_for_rom, hn]

/-- Witness for C10 at the whitespace-only key `"  "`. -/
theorem empty_key_operations_noop_witness :
    update_status cfgOn (.ok ()) "t0" "  " (some "played")
        [("pacman", Json.str "played")] [⟨"pacman", some "played", "t"⟩] =
      ([("pacman", Json.str "played")], [⟨"pacman", some "played", "t"⟩])
  ∧ status_for_rom [("pacman", Json.str "played")] "  " = Json.null :=
  ⟨(empty_key_operations_noop cfgOn (.ok ()) "t0" "https://sb.example" "game_status"
      "  " (some "played") [("pacman", Json.str "played")]
      [⟨"pacman", some "played", "t"⟩] rfl).1,
   (empty_key_operations_noop cfgOn (.ok ()) "t0" "https://sb.example" "game_status"
      "  " (some "played") [("pacman", Json.str "played")]
      [⟨"pacman", some "played", "t"⟩] rfl).2.2.2.2⟩

/-! ## C2 -/

/-- Counterexample to C2 as stated: the key `" "` is non-empty, yet after
`update_status(" ", "played")` (a no-op, since the key strips to empty)
`status_for_rom(" ")` returns `None`, not `"played"`.  Shown here with the
local backend active and an empty initial state. -/
theorem update_then_read_whitespace_key_fails :
    (" " : String) ≠ ""
  ∧ status_for_rom (update_status cfgOff (.ok ()) "t0" " " (some "played") [] []).1 " " =
      Json.null
  ∧ Json.null ≠ Json.str "played" := by
  refine ⟨by decide, rfl, fun h => ?_⟩
  cases h

/-- C2 (amended: "non-empty key" must be read as "key whose stripped form
is non-empty"; keys made only of whitespace are silently dropped by
`update_status`): for every key that strips to a non-empty string and
every status, `update_status(k, s)` followed by `status_for_rom(k)`
returns exactly `s`, whatever the configuration and whatever the remote
write's outcome — i.e. regardless of which backend is active. -/
theorem update_then_read_roundtrip (cfg : Config) (remote : Except Unit Unit)
    (now k : String) (s : Option String)
    (cache : List (String × Json)) (db : List SqlRow)
    (h : normRom k ≠ "") :
    status_for_rom (update_status cfg remote now k s cache db).1 k = statusJson s := by
  cases s with
  | none =>
    simp [update_status, status_for_rom, h, alLookup_alErase, statusJson]
  | some v =>
    simp [update_status, status_for_rom, h, alLookup_alInsert, statusJson]

/-- Witness for C2 at the key `"PacMan "` (normalised to `"pacman"`) with
the remote configured and succeeding. -/
theorem update_then_read_roundtrip_witness :
    status_for_rom
      (update_status cfgOn (.ok ()) "t0" "PacMan " (some "want_to_play") [] []).1
      "PacMan " = Json.str "want_to_play" :=
  update_then_read_roundtrip cfgOn (.ok ()) "t0" "PacMan " (some "want_to_play") [] []
    (by decide)

/-! ## C4 -/

/-- Counterexample to C4 as stated: a parseable but non-array remote
response (here the JSON object `{}`) is not reported as an error — the
parser silently returns it as data, namely the empty mapping. -/
theorem supabase_nonarray_returned_as_data :
    supabase_get_all_statuses (.ok (.obj [])) = .ok []
  ∧ (Except.ok ([] : List (String × Json)) : Except Unit (List (String × Json))) ≠
      .error () := by
  refine ⟨rfl, fun h => ?_⟩
  cases h

/-- C4 (amended: only an *unparseable* response — or a failed request —
propagates as an error; a parseable non-array response is returned as an
empty mapping rather than an error): `supabase_get_all_statuses` parses a
JSON array of `{rom, status}` rows into a mapping, re-raises
unparseable-response failures, and maps any non-array payload to the empty
mapping. -/
theorem supabase_listall_parse (j : Json) :
    supabase_get_all_statuses (.error ()) = .error ()
  ∧ ((∀ xs, j ≠ .arr xs) → supabase_get_all_statuses (.ok j) = .ok [])
  ∧ supabase_get_all_statuses
      (.ok (.arr [.obj [("rom", .str "Pacman "), ("status", .str "played")],
                  .obj [("rom", .str "dkong")]])) =
      .ok [("pacman", .str "played"), ("dkong", .null)] := by
  refine ⟨rfl, fun hna => ?_, rfl⟩
  cases j with
  | arr xs => exact absurd rfl (hna xs)
  | null => rfl
  | bool b => rfl
  | num n => rfl
  | str s => rfl
  | obj kvs => rfl

/-- Witness for C4 at the concrete non-array payload `{}`. -/
theorem supabase_listall_parse_witness :
    supabase_get_all_statuses (.ok (.obj [("note", .str "not a list")])) = .ok [] :=
  (supabase_listall_parse (.obj [("note", .str "not a list")])).2.1
    (fun xs h => by cases h)

/-! ## C8 -/

/-- The part of a row that `sqlite_get_all_statuses` reads (`SELECT rom,
status`): everything except `updated_at`. -/
def projRS (row : SqlRow) : String × Option String :=
  (row.rom, row.status)

theorem sgasStep_proj (out : List (String × Json)) (r1 r2 : SqlRow)
    (h : projRS r1 = projRS r2) : sgasStep out r1 = sgasStep out r2 := by
  obtain ⟨hrom, hstatus⟩ := Prod.mk.injEq .. ▸ h
  simp [sgasStep, hrom, hstatus]

theorem foldl_sgas_congr : ∀ (db1 db2 : List SqlRow),
    db1.map projRS = db2.map projRS →
    ∀ out, db1.foldl sgasStep out = db2.foldl sgasStep out := by
  intro db1
  induction db1 with
  | nil =>
    intro db2 h out
    cases db2 with
    | nil => rfl
    | cons b l2 => simp at h
  | cons a l1 ih =>
    intro db2 h out
    cases db2 with
    | nil => simp at h
    | cons b l2 =>
      simp only [List.map_cons, List.cons.injEq] at h
      simp only [List.foldl_cons]
      rw [sgasStep_proj out a b h.1]
      exact ih l2 h.2 (sgasStep out b)

/-- Two tables that agree row by row on `(rom, status)` produce the same
status mapping. -/
theorem sqlite_get_all_statuses_congr (db1 db2 : List SqlRow)
    (h : db1.map projRS = db2.map projRS) :
    sqlite_get_all_statuses db1 = sqlite_get_all_statuses db2 :=
  foldl_sgas_congr db1 db2 h []

theorem dbUpsert_key_present (db : List SqlRow) (r s t : String) :
    (dbUpsert db r s t).any (fun row => row.rom = r) = true := by
  unfold dbUpsert
  by_cases h : db.any (fun row => row.rom = r) = true
  · rw [if_pos h]
    rw [List.any_eq_true] at h ⊢
    obtain ⟨row, hmem, hrom⟩ := h
    refine ⟨if row.rom = r then ⟨r, some s, t⟩ else row, List.mem_map_of_mem _ hmem, ?_⟩
    simp [of_decide_eq_true hrom]
  · rw [if_neg h, List.any_append]
    simp

theorem dbUpsert_key_status (db : List SqlRow) (r s t : String) :
    ∀ row ∈ dbUpsert db r s t, row.rom = r → row = ⟨r, some s, t⟩ := by
  unfold dbUpsert
  by_cases h : db.any (fun row => row.rom = r) = true
  · simp only [h, if_true]
    intro row hmem hrom
    obtain ⟨row0, hmem0, heq⟩ := List.mem_map.mp hmem
    by_cases h0 : row0.rom = r
    · simp [h0] at heq
      exact heq.symm
    · simp [h0] at heq
      subst heq
      exact absurd hrom h0
  · simp only [h, if_false]
    intro row hmem hrom
    rcases List.mem_append.mp hmem with hin | hlast
    · exfalso
      exact h (List.any_eq_true.mpr ⟨row, hin, decide_eq_true hrom⟩)
    · simpa using hlast

theorem dbUpsert_twice_proj (db : List SqlRow) (r s t1 t2 : String) :
    (dbUpsert (dbUpsert db r s t1) r s t2).map projRS =
      (dbUpsert db r s t1).map projRS := by
  have hpres := dbUpsert_key_present db r s t1
  conv =>
    lhs
    rw [dbUpsert, hpres, if_pos rfl]
  rw [List.map_map]
  refine List.map_congr_left ?_
  intro row hmem
  by_cases hrom : row.rom = r
  · have := dbUpsert_key_status db r s t1 row hmem hrom
    subst this
    simp [projRS]
  · simp [Function.comp, hrom]

/-- C8: the local-store upsert is idempotent at the level of the observable
mapping — for a non-empty key and any status (including the
delete-encoding `None`), running `sqlite_set_status` twice (at any two
timestamps) leaves `sqlite_get_all_statuses()` identical to running it
once. -/
theorem sqlite_set_status_idempotent (t1 t2 k : String) (s : Option String)
    (db : List SqlRow) (_hk : k ≠ "") :
    sqlite_get_all_statuses (sqlite_set_status t2 k s (sqlite_set_status t1 k s db)) =
      sqlite_get_all_statuses (sqlite_set_status t1 k s db) := by
  by_cases hr : normRom k = ""
  · simp [sqlite_set_status, hr]
  · cases s with
    | none =>
      simp only [sqlite_set_status, hr, if_neg hr]
      congr 1
      exact List.filter_eq_self.mpr fun row hrow => (List.mem_filter.mp hrow).2
    | some v =>
      simp only [sqlite_set_status, hr, if_neg hr]
      exact sqlite_get_all_statuses_congr _ _ (dbUpsert_twice_proj db (normRom k) v t1 t2)

/-- Witness for C8: upserting `("pacman", "played")` twice over a two-row
table yields the same mapping as upserting once. -/
theorem sqlite_set_status_idempotent_witness :
    sqlite_get_all_statuses
        (sqlite_set_status "t2" "pacman" (some "played")
          (sqlite_set_status "t1" "pacman" (some "played")
            [⟨"dkong", some "want_to_play", "t0"⟩])) =
      sqlite_get_all_statuses
        (sqlite_set_status "t1" "pacman" (some "played")
          [⟨"dkong", some "want_to_play", "t0"⟩]) :=
  sqlite_set_status_idempotent "t1" "t2" "pacman" (some "played")
    [⟨"dkong", some "want_to_play", "t0"⟩] (by decide)

/-! ## C3 -/

/-- Any key bound in the mapping of `sqlite_get_all_statuses` is the
normalised rom of some row of the table with a truthy rom. -/
theorem sgas_key_from_row : ∀ (db : List SqlRow) (out : List (String × Json)) (k : String),
    alLookup (db.foldl sgasStep out) k ≠ none →
    alLookup out k ≠ none ∨ ∃ row ∈ db, row.rom ≠ "" ∧ normRom row.rom = k := by
  intro db
  induction db with
  | nil =>
    intro out k h
    exact Or.inl h
  | cons a l ih =>
    intro out k h
    rw [List.foldl_cons] at h
    rcases ih (sgasStep out a) k h with hstep | ⟨row, hmem, hrow⟩
    · unfold sgasStep at hstep
      by_cases ha : a.rom = ""
      · rw [if_neg (by simpa using ha)] at hstep
        exact Or.inl hstep
      · rw [if_pos (by simpa using ha), alLookup_alInsert] at hstep
        by_cases hk : normRom a.rom = k
        · exact Or.inr ⟨a, List.mem_cons_self a l, ha, hk⟩
        · rw [if_neg hk] at hstep
          exact Or.inl hstep
    · exact Or.inr ⟨row, List.mem_cons_of_mem a hmem, hrow⟩

/-- Counterexample to C3 as stated: with the remote store configured and
its delete succeeding, `update_status("pacman", None)` never touches the
local table, so `"pacman"` is still present in the mapping returned by
`sqlite_get_all_statuses()`. -/
theorem clear_status_remote_leaves_local_row :
    alLookup
      (sqlite_get_all_statuses
        (update_status cfgOn (.ok ()) "t1" "pacman" none []
          [⟨"pacman", some "played", "t0"⟩]).2)
      "pacman" = some (Json.str "played") := rfl

/-- C3 (amended: the record deletion is observable in the local table
only when the operation actually reaches the local store, i.e. when the
remote store is unconfigured or its delete raises; the cache part holds
unconditionally, whatever the configuration and the remote outcome):
after `update_status(k, None)` a `status_for_rom(k)` returns `None`; and
whenever the table's rows carry non-empty normalised keys (the invariant
`sqlite_set_status` maintains) and the delete reaches the local store,
`k` is absent from `sqlite_get_all_statuses()` — no `None`-status
sentinel row is left behind for `k`. -/
theorem clear_status_deletes_record (cfg : Config) (remote : Except Unit Unit)
    (now k : String) (cache : List (String × Json)) (db : List SqlRow) :
    status_for_rom (update_status cfg remote now k none cache db).1 k = Json.null
  ∧ ((∀ row ∈ db, row.rom ≠ "" ∧ normRom row.rom = row.rom) →
      supabase_enabled cfg = false ∨ remote = Except.error () →
      alLookup (sqlite_get_all_statuses (update_status cfg remote now k none cache db).2)
        k = none) := by
  constructor
  · by_cases hr : normRom k = ""
    · simp [update_status, status_for_rom, hr]
    · simp [update_status, status_for_rom, hr, alLookup_alErase]
  · intro hwf hlocal
    by_cases hr : normRom k = ""
    · -- empty normalised key: the operation is a no-op on the table
      have hid : (update_status cfg remote now k none cache db).2 = db := by
        simp [update_status, hr]
      rw [hid]
      by_contra hsome
      rcases sgas_key_from_row db [] k hsome with habs | ⟨row, hmem, hne, hnorm⟩
      · exact habs rfl
      · obtain ⟨hne', hfix⟩ := hwf row hmem
        have hk : row.rom = k := by rw [← hnorm, hfix]
        have hkn : normRom k = k := by rw [← hk, hfix, hk]
        exact hne' (by rw [hk, ← hkn, hr])
    · -- the delete reaches the local store by `hlocal`
      have hdel : (update_status cfg remote now k none cache db).2 =
          sqlite_set_status now (normRom k) none db := by
        simp only [update_status, if_neg hr]
        rcases hlocal with hdis | herr
        · simp [set_status, hdis]
        · subst herr
          by_cases he : supabase_enabled cfg <;> simp [set_status, he]
      rw [hdel]
      by_cases hr2 : normRom (normRom k) = ""
      · have hnoop : sqlite_set_status now (normRom k) none db = db := by
          simp [sqlite_set_status, hr2]
        rw [hnoop]
        by_contra hsome
        rcases sgas_key_from_row db [] k hsome with habs | ⟨row, hmem, hne, hnorm⟩
        · exact habs rfl
        · obtain ⟨hne', hfix⟩ := hwf row hmem
          have hk : row.rom = k := by rw [← hnorm, hfix]
          have hkn : normRom k = k := by rw [← hk, hfix, hk]
          rw [hkn] at hr2
          exact hne' (by rw [hk, ← hkn, hr2])
      · have hfilter : sqlite_set_status now (normRom k) none db =
            db.filter (fun row => row.rom ≠ normRom (normRom k)) := by
          simp [sqlite_set_status, hr2]
        rw [hfilter]
        by_contra hsome
        rcases sgas_key_from_row _ [] k hsome with habs | ⟨row, hmem, hne, hnorm⟩
        · exact habs rfl
        · have hmem' := List.mem_filter.mp hmem
          obtain ⟨hne', hfix⟩ := hwf row hmem'.1
          have hk : row.rom = k := by rw [← hnorm, hfix]
          have hkn : normRom k = k := by rw [← hk, hfix, hk]
          have hneq : row.rom ≠ normRom (normRom k) := by simpa using hmem'.2
          exact hneq (by rw [hk, ← hkn, ← hkn] at *; rw [hkn, hkn, hk])

/-- Witness for C3 (amended): the cache conjunct in the configuration
where the remote store is enabled and its delete succeeds, and the
table-absence conjunct with the remote unconfigured, both over a one-row
well-formed table holding `"pacman"` and a cache entry for it. -/
theorem clear_status_deletes_record_witness :
    status_for_rom
      (update_status cfgOn (.ok ()) "t1" "pacman" none
        [("pacman", Json.str "played")] [⟨"pacman", some "played", "t0"⟩]).1
      "pacman" = Json.null
  ∧ alLookup
      (sqlite_get_all_statuses
        (update_status cfgOff (.ok ()) "t1" "pacman" none
          [("pacman", Json.str "played")] [⟨"pacman", some "played", "t0"⟩]).2)
      "pacman" = none :=
  ⟨(clear_status_deletes_record cfgOn (.ok ()) "t1" "pacman"
      [("pacman", Json.str "played")] [⟨"pacman", some "played", "t0"⟩]).1,
   (clear_status_deletes_record cfgOff (.ok ()) "t1" "pacman"
      [("pacman", Json.str "played")] [⟨"pacman", some "played", "t0"⟩]).2
     (by decide) (Or.inl rfl)⟩

/-! ## C5 -/

/-- The two scraper endpoint variants of a subject are distinct URLs. -/
theorem adb_scraper_variants_ne (rom : String) :
    (adb_urls rom).scraper_https ≠ (adb_urls rom).scraper_http := by
  intro h
  have hlen := congrArg String.length h
  rw [show (adb_urls rom).scraper_https =
        "https://adb.arcadeitalia.net/service_scraper.php?" ++
          urlencode [("ajax", "query_mame"), ("lang", "en"), ("game_name", normRom rom)]
      from rfl,
    show (adb_urls rom).scraper_http =
        "http://adb.arcadeitalia.net/service_scraper.php?" ++
          urlencode [("ajax", "query_mame"), ("lang", "en"), ("game_name", normRom rom)]
      from rfl,
    String.length_append, String.length_append,
    show ("https://adb.arcadeitalia.net/service_scraper.php?" : String).length = 49
      from rfl,
    show ("http://adb.arcadeitalia.net/service_scraper.php?" : String).length = 48
      from rfl] at hlen
  omega

/-- At most one occurrence of any element in a one-element list. -/
theorem count_single_le_one (u1 u : String) : [u1].count u ≤ 1 := by
  rcases eq_or_ne u1 u with h1 | h1 <;> simp [List.count_cons, h1]

/-- At most one occurrence of any element in a two-element list of
distinct elements. -/
theorem count_pair_le_one {u1 u2 : String} (h : u1 ≠ u2) (u : String) :
    [u1, u2].count u ≤ 1 := by
  rcases eq_or_ne u1 u with h1 | h1 <;> rcases eq_or_ne u2 u with h2 | h2
  · exact absurd (h1.trans h2.symm) h
  all_goals simp [List.count_cons, h1, h2]

/-- C5: for a subject key with a non-empty normalised form and no cache
entry yet, the first `fetch_adb_details` call caches its result under the
normalised key; the second call returns exactly the cached value with no
network traffic; the endpoint variants are tried in order (HTTPS scraper
first, HTTP scraper second), the first well-formed result being returned,
and when both fail the returned-and-cached error dict carries the last
failure's detail and the fallback page URL; and over the two consecutive
calls each distinct endpoint variant is fetched at most once. -/
theorem fetch_adb_details_cache_spec (net : String → Except String Json)
    (rom : String) (cache : List (String × Json))
    (hrom : normRom rom ≠ "")
    (hmiss : alLookup cache (normRom rom) = none) :
    alLookup (fetch_adb_details net rom cache).2.1 (normRom rom) =
      some (fetch_adb_details net rom cache).1
  ∧ fetch_adb_details net rom (fetch_adb_details net rom cache).2.1 =
      ((fetch_adb_details net rom cache).1, (fetch_adb_details net rom cache).2.1, [])
  ∧ (∀ d, fetch_json_url net (adb_urls (normRom rom)).scraper_https = .ok d →
      (fetch_adb_details net rom cache).1 = d ∧
      (fetch_adb_details net rom cache).2.2 = [(adb_urls (normRom rom)).scraper_https])
  ∧ (∀ e1 d, fetch_json_url net (adb_urls (normRom rom)).scraper_https = .error e1 →
      fetch_json_url net (adb_urls (normRom rom)).scraper_http = .ok d →
      (fetch_adb_details net rom cache).1 = d ∧
      (fetch_adb_details net rom cache).2.2 =
        [(adb_urls (normRom rom)).scraper_https, (adb_urls (normRom rom)).scraper_http])
  ∧ (∀ e1 e2, fetch_json_url net (adb_urls (normRom rom)).scraper_https = .error e1 →
      fetch_json_url net (adb_urls (normRom rom)).scraper_http = .error e2 →
      (fetch_adb_details net rom cache).1 = Json.obj
        [("_error", .str "Could not retrieve data from ADB right now."),
         ("_detail", .str (if e2 = "" then "Unknown error" else e2)),
         ("_rom", .str (normRom rom)),
         ("_fallback_page", .str (adb_urls (normRom rom)).page_http)] ∧
      (fetch_adb_details net rom cache).2.2 =
        [(adb_urls (normRom rom)).scraper_https, (adb_urls (normRom rom)).scraper_http])
  ∧ (∀ u, ((fetch_adb_details net rom cache).2.2 ++
      (fetch_adb_details net rom (fetch_adb_details net rom cache).2.1).2.2).count u ≤ 1) := by
  have hne := adb_scraper_variants_ne (normRom rom)
  cases hc1 : fetch_json_url net (adb_urls (normRom rom)).scraper_https with
  | ok d =>
    have hfe : fetch_adb_details net rom cache =
        (d, alInsert cache (normRom rom) d, [(adb_urls (normRom rom)).scraper_https]) := by
      simp [fetch_adb_details, hrom, hmiss, hc1]
    have hsecond : fetch_adb_details net rom (alInsert cache (normRom rom) d) =
        (d, alInsert cache (normRom rom) d, []) := by
      simp [fetch_adb_details, hrom, alLookup_alInsert]
    refine ⟨?_, ?_, ?_, ?_, ?_, ?_⟩
    · rw [hfe]; simp [alLookup_alInsert]
    · rw [hfe, hsecond]
    · intro d' hd'
      cases hd'
      exact ⟨by rw [hfe], by rw [hfe]⟩
    · intro e1 d' he1 _
      cases he1
    · intro e1 e2 he1 _
      cases he1
    · intro u
      rw [hfe, hsecond]
      simpa using count_single_le_one (adb_urls (normRom rom)).scraper_https u
  | error e1 =>
    cases hc2 : fetch_json_url net (adb_urls (normRom rom)).scraper_http with
    | ok d =>
      have hfe : fetch_adb_details net rom cache =
          (d, alInsert cache (normRom rom) d,
            [(adb_urls (normRom rom)).scraper_https,
             (adb_urls (normRom rom)).scraper_http]) := by
        simp [fetch_adb_details, hrom, hmiss, hc1, hc2]
      have hsecond : fetch_adb_details net rom (alInsert cache (normRom rom) d) =
          (d, alInsert cache (normRom rom) d, []) := by
        simp [fetch_adb_details, hrom, alLookup_alInsert]
      refine ⟨?_, ?_, ?_, ?_, ?_, ?_⟩
      · rw [hfe]; simp [alLookup_alInsert]
      · rw [hfe, hsecond]
      · intro d' hd'
        cases hd'
      · intro e1' d' he1 hd'
        cases hd'
        exact ⟨by rw [hfe], by rw [hfe]⟩
      · intro e1' e2 _ he2
        cases he2
      · intro u
        rw [hfe, hsecond]
        simpa using count_pair_le_one hne u
    | error e2 =>
      have hfe : fetch_adb_details net rom cache =
          (Json.obj
            [("_error", .str "Could not retrieve data from ADB right now."),
             ("_detail", .str (if e2 = "" then "Unknown error" else e2)),
             ("_rom", .str (normRom rom)),
             ("_fallback_page", .str (adb_urls (normRom rom)).page_http)],
           alInsert cache (normRom rom)
             (Json.obj
               [("_error", .str "Could not retrieve data from ADB right now."),
                ("_detail", .str (if e2 = "" then "Unknown error" else e2)),
                ("_rom", .str (normRom rom)),
                ("_fallback_page", .str (adb_urls (normRom rom)).page_http)]),
           [(adb_urls (normRom rom)).scraper_https,
            (adb_urls (normRom rom)).scraper_http]) := by
        simp [fetch_adb_details, hrom, hmiss, hc1, hc2]
      have hsecond : fetch_adb_details net rom (fetch_adb_details net rom cache).2.1 =
          ((fetch_adb_details net rom cache).1,
            (fetch_adb_details net rom cache).2.1, []) := by
        rw [hfe]
        simp [fetch_adb_details, hrom, alLookup_alInsert]
      refine ⟨?_, hsecond, ?_, ?_, ?_, ?_⟩
      · rw [hfe]; simp [alLookup_alInsert]
      · intro d' hd'
        cases hd'
      · intro e1' d' _ hd'
        cases hd'
      · intro e1' e2' _ he2
        cases he2
        exact ⟨by rw [hfe], by rw [hfe]⟩
      · intro u
        rw [hsecond, hfe]
        simpa using count_pair_le_one hne u

/-- A network oracle on which every request fails. -/
def netBoom : String → Except String Json := fun _ => .error "boom"

/-- Witness for C5: with every request failing, the second call for
`"pacman"` returns the cached error result and issues no request. -/
theorem fetch_adb_details_cache_spec_witness :
    fetch_adb_details netBoom "pacman" ((fetch_adb_details netBoom "pacman" []).2.1) =
      ((fetch_adb_details netBoom "pacman" []).1,
        (fetch_adb_details netBoom "pacman" []).2.1, []) :=
  (fetch_adb_details_cache_spec netBoom "pacman" [] (by decide) rfl).2.1

/-! ## C6 -/

theorem dedupeFirstSeen_sublist (seen l : List String) :
    (dedupeFirstSeen seen l).Sublist l := by
  induction l generalizing seen with
  | nil => simp [dedupeFirstSeen]
  | cons x xs ih =>
    by_cases hx : x ∈ seen
    · simp only [dedupeFirstSeen, if_pos hx]
      exact (ih seen).cons x
    · simp only [dedupeFirstSeen, if_neg hx]
      exact (ih (x :: seen)).cons₂ x

theorem mem_dedupeFirstSeen (seen l : List String) (s : String) :
    s ∈ dedupeFirstSeen seen l ↔ s ∈ l ∧ s ∉ seen := by
  induction l generalizing seen with
  | nil => simp [dedupeFirstSeen]
  | cons x xs ih =>
    by_cases hx : x ∈ seen
    · rw [show dedupeFirstSeen seen (x :: xs) = dedupeFirstSeen seen xs from by
        simp [dedupeFirstSeen, hx], ih]
      simp only [List.mem_cons]
      constructor
      · rintro ⟨h1, h2⟩
        exact ⟨Or.inr h1, h2⟩
      · rintro ⟨rfl | h1, h2⟩
        · exact absurd hx h2
        · exact ⟨h1, h2⟩
    · rw [show dedupeFirstSeen seen (x :: xs) = x :: dedupeFirstSeen (x :: seen) xs from by
        simp [dedupeFirstSeen, hx]]
      simp only [List.mem_cons, ih]
      constructor
      · rintro (rfl | ⟨h1, h2⟩)
        · exact ⟨Or.inl rfl, hx⟩
        · exact ⟨Or.inr h1, fun hs => h2 (Or.inr hs)⟩
      · rintro ⟨h1 | h1, h2⟩
        · exact Or.inl h1
        · by_cases hsx : s = x
          · exact Or.inl hsx
          · exact Or.inr ⟨h1, fun hs => hs.elim hsx h2⟩

theorem nodup_dedupeFirstSeen (seen l : List String) :
    (dedupeFirstSeen seen l).Nodup := by
  induction l generalizing seen with
  | nil => simp [dedupeFirstSeen]
  | cons x xs ih =>
    by_cases hx : x ∈ seen
    · simpa [dedupeFirstSeen, hx] using ih seen
    · simp only [dedupeFirstSeen, if_neg hx]
      refine List.nodup_cons.mpr ⟨?_, ih (x :: seen)⟩
      intro hmem
      exact ((mem_dedupeFirstSeen (x :: seen) xs x).mp hmem).2 (List.mem_cons_self x seen)

mutual

theorem walkJson_eq_filter : (j : Json) →
    walkJson j = ((stringLeaves j).map pyStrip).filter isImageUrl
  | .null => rfl
  | .bool _ => rfl
  | .num _ => rfl
  | .str x => by
    cases h : isImageUrl (pyStrip x) <;>
      simp [walkJson, stringLeaves, List.filter, h]
  | .arr xs => by
    rw [show walkJson (.arr xs) = walkJsonList xs from rfl,
      show stringLeaves (.arr xs) = stringLeavesList xs from rfl]
    exact walkJsonList_eq_filter xs
  | .obj kvs => by
    rw [show walkJson (.obj kvs) = walkJsonObj kvs from rfl,
      show stringLeaves (.obj kvs) = stringLeavesObj kvs from rfl]
    exact walkJsonObj_eq_filter kvs

theorem walkJsonList_eq_filter : (xs : List Json) →
    walkJsonList xs = ((stringLeavesList xs).map pyStrip).filter isImageUrl
  | [] => rfl
  | x :: xs => by
    rw [show walkJsonList (x :: xs) = walkJson x ++ walkJsonList xs from rfl,
      show stringLeavesList (x :: xs) = stringLeaves x ++ stringLeavesList xs from rfl,
      List.map_append, List.filter_append, walkJson_eq_filter x,
      walkJsonList_eq_filter xs]

theorem walkJsonObj_eq_filter : (kvs : List (String × Json)) →
    walkJsonObj kvs = ((stringLeavesObj kvs).map pyStrip).filter isImageUrl
  | [] => rfl
  | kv :: kvs => by
    rw [show walkJsonObj (kv :: kvs) = walkJson kv.2 ++ walkJsonObj kvs from rfl,
      show stringLeavesObj (kv :: kvs) = stringLeaves kv.2 ++ stringLeavesObj kvs from rfl,
      List.map_append, List.filter_append, walkJson_eq_filter kv.2,
      walkJsonObj_eq_filter kvs]

end

/-- The nested structure named by the claim:
`{"a": {"b": ["https://x/y.png", "not a url", "https://x/z.jpg?x=1"]}}`. -/
def exC6 : Json :=
  .obj [("a", .obj [("b",
    .arr [.str "https://x/y.png", .str "not a url", .str "https://x/z.jpg?x=1"])])]

/-- C6: `extract_image_urls` returns exactly the (stripped) string leaves
of an arbitrary nested structure that are http(s) URLs ending in an image
extension optionally followed by a query string — de-duplicated, keeping
the first occurrence in traversal order; in particular the claim's
concrete example evaluates to exactly the two URLs in order. -/
theorem extract_image_urls_spec :
    extract_image_urls exC6 = ["https://x/y.png", "https://x/z.jpg?x=1"]
  ∧ (∀ j, extract_image_urls j =
      dedupeFirstSeen [] (((stringLeaves j).map pyStrip).filter isImageUrl))
  ∧ (∀ j, (extract_image_urls j).Nodup)
  ∧ (∀ j, (extract_image_urls j).Sublist (walkJson j))
  ∧ (∀ j s, s ∈ extract_image_urls j ↔ s ∈ walkJson j)
  ∧ (∀ j s, s ∈ extract_image_urls j → isImageUrl s = true) := by
  refine ⟨by decide, fun j => ?_, fun j => nodup_dedupeFirstSeen [] _,
    fun j => dedupeFirstSeen_sublist [] _, fun j s => ?_, fun j s hmem => ?_⟩
  · rw [extract_image_urls, walkJson_eq_filter]
  · rw [show extract_image_urls j = dedupeFirstSeen [] (walkJson j) from rfl]
    simpa using mem_dedupeFirstSeen [] (walkJson j) s
  · rw [show extract_image_urls j = dedupeFirstSeen [] (walkJson j) from rfl] at hmem
    have h1 := ((mem_dedupeFirstSeen [] (walkJson j) s).mp hmem).1
    rw [walkJson_eq_filter] at h1
    exact List.of_mem_filter h1

/-- Witness for C6: the first URL of the example is indeed accepted by the
image-URL test, via the membership part of the specification. -/
theorem extract_image_urls_spec_witness :
    isImageUrl "https://x/y.png" = true :=
  extract_image_urls_spec.2.2.2.2.2 exC6 "https://x/y.png" (by decide)
